import Mathlib

/-!
Verification of the SurvEase client views (feed, leaderboard, fill/rate
modal, navigation shell) against their natural-language specification.

The TypeScript sources are shallowly embedded: JavaScript numbers that hold
ratings and comparator results are modelled as rationals (ℚ), backend rows
as structures, the browser's localStorage as a partial map from keys to
strings, and `Array.prototype.sort` (stable since ES2019) as `List.mergeSort`
with the comparator's "a may precede b" relation.  Fallible backend calls
are passed in as `Except`/outcome values so each handler becomes a pure
function of its inputs.
-/

namespace SurvEase

/-! ## Shared JavaScript semantics helpers -/

/-- Truthiness of a `string | null` value: `null` and the empty string are
falsy, every other string is truthy. -/
def jsStrTruthy : Option String → Bool
  | none => false
  | some s => !(s == "")

/-- Model of `String.prototype.toLowerCase` (character-wise lowering). -/
def jsToLowerCase (s : String) : String := String.mk (s.data.map Char.toLower)

/-- Does the pattern occur at the head of the text? (helper for `includes`). -/
def charsStartWith : List Char → List Char → Bool
  | _, [] => true
  | [], _ :: _ => false
  | c :: cs, d :: ds => c == d && charsStartWith cs ds

/-- Does the pattern occur anywhere in the text? (helper for `includes`). -/
def charsContain : List Char → List Char → Bool
  | [], pat => charsStartWith [] pat
  | c :: t, pat => charsStartWith (c :: t) pat || charsContain t pat

/-- Model of `String.prototype.includes`: substring containment. -/
def jsIncludes (s pat : String) : Bool := charsContain s.data pat.data

/-- Model of `String.prototype.trim`: strip leading and trailing whitespace. -/
def jsTrim (s : String) : String :=
  String.mk (((s.data.dropWhile Char.isWhitespace).reverse.dropWhile Char.isWhitespace).reverse)

/-! ## Data model: rows surfaced from the hosted backend -/

/-- A row of the `profiles` table, as selected (`id`, `name`). -/
structure ProfileRow where
  id : String
  name : String
deriving DecidableEq

/-- A `forms` row as the feed query returns it (`select *, form_fills (rating)`),
before the per-form profile lookup.  `description` and `tags` are nullable in
the defensive reading the code uses (`form.description && ...`,
`form.tags && ...`); timestamps are modelled as integer epoch values, matching
the `new Date(x).getTime()` comparisons; `form_fills` is the list of ratings
of the form's fill records. -/
structure FormRow where
  id : String
  title : String
  description : Option String
  google_form_url : String
  tags : Option (List String)
  created_at : Int
  expire_at : Option Int
  user_id : String
  form_fills : List ℚ
deriving DecidableEq

/-- A feed form after `fetchForms` attached the poster's profile: the
`profiles` field is always populated (with `'Unknown User'` substituted when
the lookup yields nothing). -/
structure FeedForm extends FormRow where
  profile_name : String
deriving DecidableEq

/-! ## Feed (src/pages/Feed.tsx) -/

/-- Outcome of one `profiles` lookup (`.eq('id', ...).maybeSingle()`) inside
`fetchForms`: the call can resolve with a row or no row, resolve with an
error object (data `null`), or throw (caught by the per-form `try/catch`). -/
inductive ProfileFetchResult where
  | ok (profile : Option ProfileRow)
  | queryError
  | thrown
deriving DecidableEq

/-- The profile attached to a form: `profile || { name: 'Unknown User' }`,
with the error and thrown cases also falling back to `'Unknown User'`. -/
def resolveProfileName : ProfileFetchResult → String
  | ProfileFetchResult.ok (some p) => p.name
  | _ => "Unknown User"

/-- The feed's component state: `forms`, `loading`, `error`. -/
structure FeedState where
  forms : List FeedForm
  loading : Bool
  error : Option String
deriving DecidableEq

/-- One run of `fetchForms`: `setLoading(true); setError(null)`, the forms
query, the per-form profile lookups, and the `catch`/`finally` handling.  The
initial query is passed as an `Except` (`error msg` = the query failed and the
caught error's message is `msg`; the `!formsData || formsData.length === 0`
check collapses to `isEmpty` since a null and an empty result take the same
branch).  `profileFetch` gives each form's profile-lookup outcome. -/
def fetchForms (st : FeedState) (formsResult : Except String (List FormRow))
    (profileFetch : FormRow → ProfileFetchResult) : FeedState :=
  match formsResult with
  | Except.error msg => { st with error := some msg, loading := false }
  | Except.ok formsData =>
    if formsData.isEmpty then
      { st with forms := [], error := none, loading := false }
    else
      { st with
        forms := formsData.map (fun form =>
          { toFormRow := form, profile_name := resolveProfileName (profileFetch form) }),
        error := none,
        loading := false }

/-- `matchesSearch` of the feed's filter: title match, or a truthy description
that matches, both sides lowercased. -/
def matchesSearch (form : FeedForm) (searchTerm : String) : Bool :=
  jsIncludes (jsToLowerCase form.title) (jsToLowerCase searchTerm) ||
    (jsStrTruthy form.description &&
      jsIncludes (jsToLowerCase (form.description.getD "")) (jsToLowerCase searchTerm))

/-- `matchesTag` of the feed's filter: `'all'`, or a non-null tag array that
contains the selected tag. -/
def matchesTag (form : FeedForm) (filterTag : String) : Bool :=
  (filterTag == "all") || (form.tags.isSome && (form.tags.getD []).contains filterTag)

/-- `filteredForms = forms.filter(...)`. -/
def filteredForms (forms : List FeedForm) (searchTerm filterTag : String) : List FeedForm :=
  forms.filter (fun form => matchesSearch form searchTerm && matchesTag form filterTag)

/-- The guarded average computed inside the `'rating'` sort case:
`fills.length > 0 ? fills.reduce((sum, fill) => sum + fill.rating, 0) / fills.length : 0`. -/
def ratingSortKey (form_fills : List ℚ) : ℚ :=
  if form_fills.length > 0 then
    form_fills.foldl (fun sum fill => sum + fill) 0 / (form_fills.length : ℚ)
  else 0

/-- The `averageRating` computed for each rendered form card (same guarded
reduce/divide expression as the sort key, at the display site). -/
def averageRating (form_fills : List ℚ) : ℚ :=
  if form_fills.length > 0 then
    form_fills.foldl (fun sum fill => sum + fill) 0 / (form_fills.length : ℚ)
  else 0

/-- The comparator passed to `.sort(...)` by `sortedForms`, per `sortBy`. -/
def feedComparator (sortBy : String) (a b : FeedForm) : ℚ :=
  if sortBy = "oldest" then ((a.created_at : ℚ) - (b.created_at : ℚ))
  else if sortBy = "rating" then
    ratingSortKey b.form_fills - ratingSortKey a.form_fills
  else if sortBy = "expiring" then
    match a.expire_at, b.expire_at with
    | none, none => 0
    | none, some _ => 1
    | some _, none => -1
    | some x, some y => ((x : ℚ) - (y : ℚ))
  else ((b.created_at : ℚ) - (a.created_at : ℚ))

/-- `sortedForms = [...list].sort(comparator)`: a stable sort in which `a` may
precede `b` exactly when the comparator is non-positive. -/
def sortedForms (sortBy : String) (forms : List FeedForm) : List FeedForm :=
  forms.mergeSort (fun a b => decide (feedComparator sortBy a b ≤ 0))

/-- What the feed component renders: the loading spinner, the error card
(which shows the message and a manual 'Try Again' button wired to
`fetchForms`), or the grid of filtered-and-sorted form cards. -/
inductive FeedView where
  | loadingSpinner
  | errorCard (message : String)
  | formsGrid (cards : List FeedForm)
deriving DecidableEq

/-- The feed's render decision: `if (loading) ...; if (error) ...;` then the
grid.  `if (error)` is JavaScript truthiness on a `string | null` state. -/
def feedRender (st : FeedState) (searchTerm sortBy filterTag : String) : FeedView :=
  if st.loading then FeedView.loadingSpinner
  else if jsStrTruthy st.error then FeedView.errorCard (st.error.getD "")
  else FeedView.formsGrid (sortedForms sortBy (filteredForms st.forms searchTerm filterTag))

/-! ## Leaderboard (Leaderboard component) -/

/-- A `form_fills` row as the leaderboard queries see it (`user_id` for the
fillers pass, `rating` — nullable — for the posters pass). -/
structure LFillRow where
  form_id : String
  user_id : String
  rating : Option ℚ
deriving DecidableEq

/-- A `forms` row as the leaderboard queries see it (`id`, `user_id`). -/
structure LFormRow where
  id : String
  user_id : String
deriving DecidableEq

/-- The backend tables the leaderboard reads, as one snapshot. -/
structure LeaderboardDB where
  forms : List LFormRow
  form_fills : List LFillRow
  profiles : List ProfileRow

/-- `maybeSingle()` on `profiles.select('name').eq('id', userId)`: a row when
exactly one matches, `null` data otherwise (no row, or the multiple-row
error). -/
def maybeSingle (profiles : List ProfileRow) (userId : String) : Option ProfileRow :=
  match profiles.filter (fun p => p.id == userId) with
  | [p] => some p
  | _ => none

/-- Per-user accumulator of the fillers pass. -/
structure FillerStat where
  formsFilled : Nat
  points : Nat
  badges : Nat
deriving DecidableEq

/-- A rendered fillers-leaderboard entry. -/
structure TopFiller where
  rank : Nat
  name : String
  formsFilled : Nat
  points : Nat
  badges : Nat
deriving DecidableEq

/-- One iteration of the `fillersData?.forEach` loop: create the user's record
(`{ formsFilled: 0, points: 0, badges: 0 }`) if absent, then
`formsFilled += 1; points += 5`.  The record's keys keep insertion order. -/
def bumpFillerStat (stats : List (String × FillerStat)) (userId : String) :
    List (String × FillerStat) :=
  if stats.any (fun kv => kv.1 == userId) then
    stats.map (fun kv =>
      if kv.1 == userId then
        (kv.1, { kv.2 with formsFilled := kv.2.formsFilled + 1, points := kv.2.points + 5 })
      else kv)
  else
    stats ++ [(userId, { formsFilled := 1, points := 5, badges := 0 })]

/-- `fillerStats` after the whole `forEach` over the `form_fills` rows. -/
def fillerStats (fills : List LFillRow) : List (String × FillerStat) :=
  fills.foldl (fun stats fill => bumpFillerStat stats fill.user_id) []

/-- The `for (const userId of fillerUserIds)` loop: look the profile up and
push an entry (rank 0, badges hard-coded to 0) when a profile was found. -/
def fillersWithNames (db : LeaderboardDB) : List TopFiller :=
  (fillerStats db.form_fills).filterMap (fun kv =>
    match maybeSingle db.profiles kv.1 with
    | some profile =>
      some { rank := 0, name := profile.name, formsFilled := kv.2.formsFilled,
             points := kv.2.points, badges := 0 }
    | none => none)

/-- `.map((item, index) => ({ ...item, rank: index + 1 }))` starting at `i`. -/
def assignFillerRanks : Nat → List TopFiller → List TopFiller
  | _, [] => []
  | i, e :: rest => { e with rank := i + 1 } :: assignFillerRanks (i + 1) rest

/-- The fillers comparator `(a, b) => b.formsFilled - a.formsFilled` as the
"a may precede b" relation. -/
def fillerLe (a b : TopFiller) : Bool := decide (b.formsFilled ≤ a.formsFilled)

/-- `sortedFillers`: sort descending by `formsFilled`, `.slice(0, 8)`, then
assign ranks 1.. in order. -/
def sortedFillers (db : LeaderboardDB) : List TopFiller :=
  assignFillerRanks 0 (((fillersWithNames db).mergeSort fillerLe).take 8)

/-- Per-user accumulator of the posters pass. -/
structure PosterStat where
  formsPosted : Nat
  totalResponses : Nat
  avgRating : ℚ
deriving DecidableEq

/-- A rendered posters-leaderboard entry. -/
structure TopPoster where
  rank : Nat
  name : String
  formsPosted : Nat
  totalResponses : Nat
  avgRating : ℚ
deriving DecidableEq

/-- One iteration of the `postersData?.forEach` loop. -/
def bumpPosterStat (stats : List (String × PosterStat)) (userId : String) :
    List (String × PosterStat) :=
  if stats.any (fun kv => kv.1 == userId) then
    stats.map (fun kv =>
      if kv.1 == userId then (kv.1, { kv.2 with formsPosted := kv.2.formsPosted + 1 })
      else kv)
  else
    stats ++ [(userId, { formsPosted := 1, totalResponses := 0, avgRating := 0 })]

/-- `posterStats` after the whole `forEach` over the `forms` rows. -/
def posterStats (forms : List LFormRow) : List (String × PosterStat) :=
  forms.foldl (fun stats form => bumpPosterStat stats form.user_id) []

/-- The posters' average over the fetched `rating` values: filter the
non-null ratings, then `reduce((sum, r) => sum + (r.rating || 0), 0)` divided
by their count when there are any, `0` otherwise. -/
def posterAvgRatingRaw (responses : List (Option ℚ)) : ℚ :=
  let ratingsWithValues := responses.filter (fun r => r.isSome)
  if ratingsWithValues.length > 0 then
    ratingsWithValues.foldl (fun sum r => sum + r.getD 0) 0 / (ratingsWithValues.length : ℚ)
  else 0

/-- `Number(x.toFixed(1))`: round to one decimal place (the values here are
non-negative, where `toFixed` rounds halves up). -/
def toFixed1 (q : ℚ) : ℚ := ((round (q * 10) : ℤ) : ℚ) / 10

/-- One iteration of the `for (const userId of posterUserIds)` loop: profile
lookup, the user's form ids, the fills of those forms, then push the entry
with `avgRating: Number(avgRating.toFixed(1))`. -/
def posterEntry (db : LeaderboardDB) (userId : String) (stat : PosterStat) : Option TopPoster :=
  match maybeSingle db.profiles userId with
  | none => none
  | some profile =>
    let userForms := (db.forms.filter (fun f => f.user_id == userId)).map (fun f => f.id)
    if userForms.length > 0 then
      let responses :=
        (db.form_fills.filter (fun fl => userForms.contains fl.form_id)).map (fun fl => fl.rating)
      some { rank := 0, name := profile.name, formsPosted := stat.formsPosted,
             totalResponses := responses.length,
             avgRating := toFixed1 (posterAvgRatingRaw responses) }
    else
      some { rank := 0, name := profile.name, formsPosted := stat.formsPosted,
             totalResponses := 0, avgRating := toFixed1 0 }

/-- `postersWithNames` after the whole loop. -/
def postersWithNames (db : LeaderboardDB) : List TopPoster :=
  (posterStats db.forms).filterMap (fun kv => posterEntry db kv.1 kv.2)

/-- `.map((item, index) => ({ ...item, rank: index + 1 }))` starting at `i`. -/
def assignPosterRanks : Nat → List TopPoster → List TopPoster
  | _, [] => []
  | i, e :: rest => { e with rank := i + 1 } :: assignPosterRanks (i + 1) rest

/-- The posters comparator `(a, b) => b.formsPosted - a.formsPosted` as the
"a may precede b" relation. -/
def posterLe (a b : TopPoster) : Bool := decide (b.formsPosted ≤ a.formsPosted)

/-- `sortedPosters`: sort descending by `formsPosted`, `.slice(0, 8)`, then
assign ranks 1.. in order. -/
def sortedPosters (db : LeaderboardDB) : List TopPoster :=
  assignPosterRanks 0 (((postersWithNames db).mergeSort posterLe).take 8)

/-- The arithmetic mean, per the specification's words, of the non-null
ratings over all fills of the given user's forms (0 when there are none).
Used to compare the displayed `avgRating` against the claim. -/
def specUserMeanRating (db : LeaderboardDB) (userId : String) : ℚ :=
  let vals := (db.form_fills.filter (fun fl =>
    db.forms.any (fun f => f.user_id == userId && f.id == fl.form_id))).filterMap
      (fun fl => fl.rating)
  if vals.length > 0 then vals.sum / (vals.length : ℚ) else 0

/-! ## Fill-and-rate modal (FormFillModal component) -/

/-- The row `handleSubmit` inserts into `form_fills`. -/
structure FillInsert where
  form_id : String
  user_id : String
  rating : Nat
  comment : Option String
deriving DecidableEq

/-- What one `handleSubmit` run does: an error toast with no insert, or the
insert attempt. -/
inductive SubmitOutcome where
  | toastLoginError
  | toastRatingError
  | insertFill (row : FillInsert)
deriving DecidableEq

/-- `handleSubmit`: no user ⇒ 'Please log in to fill forms'; rating 0 ⇒
'Please provide a rating'; otherwise insert with `comment.trim() || null`. -/
def handleSubmit (user : Option String) (rating : Nat) (comment formId : String) :
    SubmitOutcome :=
  match user with
  | none => SubmitOutcome.toastLoginError
  | some uid =>
    if rating = 0 then SubmitOutcome.toastRatingError
    else
      SubmitOutcome.insertFill
        { form_id := formId, user_id := uid, rating := rating,
          comment := if jsTrim comment == "" then none else some (jsTrim comment) }

/-- The values wired to the star buttons: `[1, 2, 3, 4, 5].map(...)`, each
passed to `handleRatingClick`. -/
def starRatingValues : List Nat := [1, 2, 3, 4, 5]

/-! ## Navigation shell: dark-mode preference (Navigation component) -/

/-- `localStorage.getItem`. -/
def getItem (storage : String → Option String) (key : String) : Option String := storage key

/-- `localStorage.setItem`. -/
def setItem (storage : String → Option String) (key value : String) :
    String → Option String :=
  fun k => if k = key then some value else storage k

/-- The mount-time initialization:
`localStorage.getItem('darkMode') === 'true'`. -/
def initDarkMode (storage : String → Option String) : Bool :=
  getItem storage "darkMode" == some "true"

/-- `toggleDarkMode`: flip the flag and store its `toString()` under
`'darkMode'`.  Returns the new flag and the new storage. -/
def toggleDarkMode (isDarkMode : Bool) (storage : String → Option String) :
    Bool × (String → Option String) :=
  let newDarkMode := !isDarkMode
  (newDarkMode, setItem storage "darkMode" (toString newDarkMode))

/-! ## Helper lemmas -/

theorem foldl_add_eq_add_sum (l : List ℚ) (a : ℚ) :
    l.foldl (fun sum fill => sum + fill) a = a + l.sum := by
  induction l generalizing a with
  | nil => simp
  | cons x xs ih => simp [List.foldl_cons, ih (a + x), List.sum_cons, add_assoc]

/-! ## C1: the feed's average rating is the arithmetic mean -/

/-- C1: For every form whose list of fills is non-empty, the average rating
computed by the feed equals the arithmetic mean of the fills' ratings (sum
divided by count), both at the display site (`averageRating` on the form
card) and at the sort site (the guarded average that the `'rating'`
comparator subtracts, i.e. the 'Highest Rated' sort key). -/
theorem feed_average_rating_is_mean (fills : List ℚ) (h : fills ≠ []) :
    averageRating fills = fills.sum / (fills.length : ℚ) ∧
    ratingSortKey fills = fills.sum / (fills.length : ℚ) ∧
    ∀ a b : FeedForm, feedComparator "rating" a b =
      ratingSortKey b.form_fills - ratingSortKey a.form_fills := by
  have hlen : fills.length > 0 := List.length_pos.mpr h
  refine ⟨?_, ?_, ?_⟩
  · rw [averageRating, if_pos hlen, foldl_add_eq_add_sum, zero_add]
  · rw [ratingSortKey, if_pos hlen, foldl_add_eq_add_sum, zero_add]
  · intro a b
    rw [feedComparator, if_neg (by decide), if_pos rfl]

/-- Witness for C1 at the concrete fill list `[3, 5]`. -/
theorem feed_average_rating_is_mean_witness :
    ([(3 : ℚ), 5] ≠ []) ∧
      averageRating [(3 : ℚ), 5] = ([(3 : ℚ), 5].sum / (([(3 : ℚ), 5].length : ℕ) : ℚ)) :=
  ⟨by simp, (feed_average_rating_is_mean [(3 : ℚ), 5] (by simp)).1⟩

/-! ## C8: empty fill lists give average 0 through the guards -/

/-- C8: With an empty list of fills the computed average rating is 0: the
division by the fill count is guarded by a non-emptiness check at the feed
display site, the feed rating-sort site, and the leaderboard poster-average
site (which guards on the count of non-null ratings). -/
theorem empty_fills_average_zero :
    averageRating [] = 0 ∧ ratingSortKey [] = 0 ∧
    ∀ responses : List (Option ℚ),
      (responses.filter (fun r => r.isSome)).length = 0 → posterAvgRatingRaw responses = 0 := by
  refine ⟨by simp [averageRating], by simp [ratingSortKey], ?_⟩
  intro responses h
  rw [posterAvgRatingRaw]
  simp only [h]
  simp

/-! ## C6: the dark-mode preference round-trips through storage -/

/-- C6: Toggling the dark-mode preference writes the string `'true'` or
`'false'` for the new mode under the key `'darkMode'`, initialization enables
dark mode exactly when the stored value equals `'true'`, and hence the mode
restored at startup equals the mode last toggled. -/
theorem dark_mode_round_trips (mode : Bool) (storage : String → Option String) :
    (toggleDarkMode mode storage).1 = !mode ∧
    getItem (toggleDarkMode mode storage).2 "darkMode" = some (toString (!mode)) ∧
    (∀ b : Bool, toString b = "true" ∨ toString b = "false") ∧
    initDarkMode (toggleDarkMode mode storage).2 = (toggleDarkMode mode storage).1 := by
  refine ⟨rfl, by simp [toggleDarkMode, getItem, setItem], ?_, ?_⟩
  · intro b
    cases b
    · right; rfl
    · left; rfl
  · cases mode <;> simp [toggleDarkMode, initDarkMode, getItem, setItem] <;> decide

/-! ## C9: the fill-and-rate modal inserts exactly when allowed -/

/-- C9: `handleSubmit` attempts an insert into `form_fills` if and only if a
user is logged in and the rating is non-zero; an absent user yields the
login-error toast, a zero rating the rating-error toast, with no insert; the
star buttons only ever set an integer rating between 1 and 5. -/
theorem modal_submit_gating (user : Option String) (rating : Nat) (comment formId : String) :
    ((∃ row, handleSubmit user rating comment formId = SubmitOutcome.insertFill row) ↔
      (user.isSome = true ∧ rating ≠ 0)) ∧
    (handleSubmit none rating comment formId = SubmitOutcome.toastLoginError) ∧
    (∀ uid, handleSubmit (some uid) 0 comment formId = SubmitOutcome.toastRatingError) ∧
    (∀ v ∈ starRatingValues, 1 ≤ v ∧ v ≤ 5) := by
  refine ⟨?_, rfl, fun uid => by simp [handleSubmit], by decide⟩
  constructor
  · rintro ⟨row, hrow⟩
    match user with
    | none => simp [handleSubmit] at hrow
    | some uid =>
      refine ⟨rfl, ?_⟩
      intro h0
      rw [handleSubmit] at hrow
      simp [h0] at hrow
  · rintro ⟨hsome, h0⟩
    match user with
    | none => simp at hsome
    | some uid =>
      refine ⟨{ form_id := formId, user_id := uid, rating := rating,
                comment := if jsTrim comment == "" then none else some (jsTrim comment) }, ?_⟩
      rw [handleSubmit]
      simp [h0]

/-! ## C4/C5: feed error handling -/

/-- A concrete form row used in the error-handling counterexamples. -/
def exFormRow : FormRow :=
  { id := "f1", title := "T", description := none, google_form_url := "u",
    tags := none, created_at := 0, expire_at := none, user_id := "u1", form_fills := [] }

/-- The feed's state on mount: no forms, loading, no error. -/
def exInitialFeedState : FeedState := { forms := [], loading := true, error := none }

/-- C4 (amended): When the initial forms query fails, `fetchForms` stores the
error message in the error state, clears `loading`, and leaves the forms list
unchanged; the error view (with its manual 'Try Again' button) is rendered
whenever the stored message is non-empty — with an empty message the error is
stored but `if (error)` is falsy and the normal grid renders. -/
theorem feed_query_failure_sets_error (st : FeedState) (msg : String)
    (pf : FormRow → ProfileFetchResult) (searchTerm sortBy filterTag : String) :
    (fetchForms st (Except.error msg) pf).forms = st.forms ∧
    (fetchForms st (Except.error msg) pf).error = some msg ∧
    (fetchForms st (Except.error msg) pf).loading = false ∧
    (msg ≠ "" →
      feedRender (fetchForms st (Except.error msg) pf) searchTerm sortBy filterTag =
        FeedView.errorCard msg) := by
  refine ⟨rfl, rfl, rfl, ?_⟩
  intro hmsg
  simp [fetchForms, feedRender, jsStrTruthy, hmsg]

/-- C4 counterexample: a query failure whose caught message is the empty
string stores the message but renders the forms grid, not the error view
(`if (error)` is falsy on `''`), against the claim that every failure renders
the error view. -/
theorem feed_empty_message_renders_grid :
    (fetchForms exInitialFeedState (Except.error "")
        (fun _ => ProfileFetchResult.ok none)).error = some "" ∧
    feedRender
        (fetchForms exInitialFeedState (Except.error "") (fun _ => ProfileFetchResult.ok none))
        "" "newest" "all" = FeedView.formsGrid [] := by
  constructor
  · rfl
  · simp [fetchForms, exInitialFeedState, feedRender, jsStrTruthy, sortedForms, filteredForms]

/-- C5 (amended): Only a failure of the initial forms query is surfaced as the
feed's error state.  A failed per-form profile lookup (an error result, a no-
row result, or a thrown request) does not produce the error state: the form is
kept and its profile is substituted with the name 'Unknown User'. -/
theorem feed_profile_failure_substituted (st : FeedState) (msg : String)
    (pf : FormRow → ProfileFetchResult) (fd : List FormRow) :
    ((fetchForms st (Except.error msg) pf).error = some msg) ∧
    ((fetchForms st (Except.ok fd) pf).error = none) ∧
    (fd.isEmpty = false →
      (fetchForms st (Except.ok fd) pf).forms =
        fd.map (fun form =>
          { toFormRow := form, profile_name := resolveProfileName (pf form) })) ∧
    (∀ r : ProfileFetchResult,
      (r = ProfileFetchResult.thrown ∨ r = ProfileFetchResult.queryError ∨
          r = ProfileFetchResult.ok none) →
        resolveProfileName r = "Unknown User") := by
  refine ⟨rfl, ?_, ?_, ?_⟩
  · cases h : fd.isEmpty <;> simp [fetchForms, h]
  · intro h
    simp [fetchForms, h]
  · rintro r (rfl | rfl | rfl) <;> rfl

/-- C5 counterexample: the forms query succeeds with one form and that form's
profile lookup throws; the resulting state has no error (no error view) and
the form is kept with 'Unknown User' substituted — a partially substituted
result, against the claim that such a failure yields the error state. -/
theorem feed_profile_failure_counterexample :
    (fetchForms exInitialFeedState (Except.ok [exFormRow])
        (fun _ => ProfileFetchResult.thrown)).error = none ∧
    (fetchForms exInitialFeedState (Except.ok [exFormRow])
          (fun _ => ProfileFetchResult.thrown)).forms.map (fun f => f.profile_name) =
      ["Unknown User"] := by
  constructor <;> simp [fetchForms, exFormRow, exInitialFeedState, resolveProfileName]

/-! ## C7: the feed's filter predicate, and sort as a permutation -/

theorem charsContain_nil_pat (l : List Char) : charsContain l [] = true := by
  cases l <;> simp [charsContain, charsStartWith]

theorem jsIncludes_empty_pat (s : String) : jsIncludes s "" = true := by
  simp [jsIncludes, charsContain_nil_pat]

theorem jsIncludes_empty_src (p : String) : jsIncludes "" p = true ↔ p = "" := by
  rw [String.ext_iff]
  cases hp : p.data with
  | nil => simp [jsIncludes, hp, charsContain, charsStartWith]
  | cons c cs => simp [jsIncludes, hp, charsContain, charsStartWith]

theorem jsToLowerCase_eq_empty_iff (s : String) : jsToLowerCase s = "" ↔ s = "" := by
  rw [String.ext_iff, String.ext_iff]
  show s.data.map Char.toLower = [] ↔ s.data = []
  simp

theorem jsToLowerCase_empty : jsToLowerCase "" = "" := rfl

theorem matchesSearch_iff (form : FeedForm) (q : String) :
    matchesSearch form q = true ↔
      (jsIncludes (jsToLowerCase form.title) (jsToLowerCase q) = true ∨
        ∃ d, form.description = some d ∧ jsIncludes (jsToLowerCase d) (jsToLowerCase q) = true) := by
  rw [matchesSearch, Bool.or_eq_true, Bool.and_eq_true]
  constructor
  · rintro (h | ⟨htruthy, hinc⟩)
    · exact Or.inl h
    · cases hd : form.description with
      | none =>
        rw [hd] at htruthy
        simp [jsStrTruthy] at htruthy
      | some d =>
        rw [hd] at hinc
        exact Or.inr ⟨d, rfl, by simpa using hinc⟩
  · rintro (h | ⟨d, hd, hinc⟩)
    · exact Or.inl h
    · by_cases hde : d = ""
      · subst hde
        left
        have hq : q = "" := by
          rw [jsToLowerCase_empty] at hinc
          exact (jsToLowerCase_eq_empty_iff q).mp ((jsIncludes_empty_src _).mp hinc)
        subst hq
        exact jsIncludes_empty_pat _
      · right
        constructor
        · rw [hd]
          simp [jsStrTruthy, hde]
        · rw [hd]
          simpa using hinc

theorem matchesTag_iff (form : FeedForm) (t : String) :
    matchesTag form t = true ↔ (t = "all" ∨ t ∈ form.tags.getD []) := by
  rw [matchesTag, Bool.or_eq_true, Bool.and_eq_true]
  cases ht : form.tags with
  | none => simp
  | some l =>
    simp only [Option.isSome_some, Option.getD_some, true_and, beq_iff_eq]
    constructor
    · rintro (h | h)
      · exact Or.inl h
      · exact Or.inr (List.contains_iff_exists_mem_beq.mp h |>.elim
          (fun a ha => by
            obtain ⟨hmem, hbeq⟩ := ha
            have : t = a := eq_of_beq hbeq
            rwa [this]))
    · rintro (h | h)
      · exact Or.inl h
      · exact Or.inr (List.contains_iff_exists_mem_beq.mpr ⟨t, h, by simp⟩)

/-- C7: A form appears in the feed's displayed (filtered then sorted) list if
and only if it is one of the fetched forms and its title — or its non-null
description — contains the search term case-insensitively, and the selected
tag filter is `'all'` or the form's tag list includes the selected tag.  The
filter-and-sort pipeline admits or removes forms by this predicate alone, for
every sort mode. -/
theorem feed_filter_membership (forms : List FeedForm)
    (searchTerm sortBy filterTag : String) (f : FeedForm) :
    f ∈ sortedForms sortBy (filteredForms forms searchTerm filterTag) ↔
      (f ∈ forms ∧
        ((jsIncludes (jsToLowerCase f.title) (jsToLowerCase searchTerm) = true ∨
            ∃ d, f.description = some d ∧
              jsIncludes (jsToLowerCase d) (jsToLowerCase searchTerm) = true) ∧
          (filterTag = "all" ∨ filterTag ∈ f.tags.getD []))) := by
  rw [sortedForms, List.mem_mergeSort, filteredForms, List.mem_filter, Bool.and_eq_true,
    matchesSearch_iff, matchesTag_iff]

/-! ## C3: both leaderboards are sorted, truncated to 8, and ranked 1..n -/

theorem assignFillerRanks_map_formsFilled (l : List TopFiller) (i : Nat) :
    (assignFillerRanks i l).map (fun e => e.formsFilled) = l.map (fun e => e.formsFilled) := by
  induction l generalizing i with
  | nil => rfl
  | cons e rest ih => simp [assignFillerRanks, ih]

theorem assignFillerRanks_length (l : List TopFiller) (i : Nat) :
    (assignFillerRanks i l).length = l.length := by
  induction l generalizing i with
  | nil => rfl
  | cons e rest ih => simp [assignFillerRanks, ih]

theorem assignFillerRanks_map_rank (l : List TopFiller) (i : Nat) :
    (assignFillerRanks i l).map (fun e => e.rank) = List.range' (i + 1) l.length := by
  induction l generalizing i with
  | nil => rfl
  | cons e rest ih => simp [assignFillerRanks, ih, List.range'_succ]

theorem assignPosterRanks_map_formsPosted (l : List TopPoster) (i : Nat) :
    (assignPosterRanks i l).map (fun e => e.formsPosted) = l.map (fun e => e.formsPosted) := by
  induction l generalizing i with
  | nil => rfl
  | cons e rest ih => simp [assignPosterRanks, ih]

theorem assignPosterRanks_length (l : List TopPoster) (i : Nat) :
    (assignPosterRanks i l).length = l.length := by
  induction l generalizing i with
  | nil => rfl
  | cons e rest ih => simp [assignPosterRanks, ih]

theorem assignPosterRanks_map_rank (l : List TopPoster) (i : Nat) :
    (assignPosterRanks i l).map (fun e => e.rank) = List.range' (i + 1) l.length := by
  induction l generalizing i with
  | nil => rfl
  | cons e rest ih => simp [assignPosterRanks, ih, List.range'_succ]

theorem sortedFillers_pairwise (db : LeaderboardDB) :
    (sortedFillers db).Pairwise (fun a b => b.formsFilled ≤ a.formsFilled) := by
  have hs : ((fillersWithNames db).mergeSort fillerLe).Pairwise (fun a b => fillerLe a b) :=
    List.sorted_mergeSort
      (fun a b c hab hbc => by
        simp only [fillerLe, decide_eq_true_eq] at *
        omega)
      (fun a b => by
        simp only [fillerLe, Bool.or_eq_true, decide_eq_true_eq]
        omega)
      (fillersWithNames db)
  have ht := hs.sublist (List.take_sublist 8 _)
  rw [sortedFillers, ← List.pairwise_map (f := fun e : TopFiller => e.formsFilled)
    (R := fun x y : Nat => y ≤ x), assignFillerRanks_map_formsFilled, List.pairwise_map]
  exact ht.imp (fun h => by simpa [fillerLe] using h)

theorem sortedPosters_pairwise (db : LeaderboardDB) :
    (sortedPosters db).Pairwise (fun a b => b.formsPosted ≤ a.formsPosted) := by
  have hs : ((postersWithNames db).mergeSort posterLe).Pairwise (fun a b => posterLe a b) :=
    List.sorted_mergeSort
      (fun a b c hab hbc => by
        simp only [posterLe, decide_eq_true_eq] at *
        omega)
      (fun a b => by
        simp only [posterLe, Bool.or_eq_true, decide_eq_true_eq]
        omega)
      (postersWithNames db)
  have ht := hs.sublist (List.take_sublist 8 _)
  rw [sortedPosters, ← List.pairwise_map (f := fun e : TopPoster => e.formsPosted)
    (R := fun x y : Nat => y ≤ x), assignPosterRanks_map_formsPosted, List.pairwise_map]
  exact ht.imp (fun h => by simpa [posterLe] using h)

/-- C3: Each leaderboard is the client-side aggregation of the fetched rows,
sorted in descending order of the aggregate count (`formsFilled` for fillers,
`formsPosted` for posters), truncated to at most 8 entries, and assigned
ranks 1 through n in that sorted order. -/
theorem leaderboards_sorted_truncated_ranked (db : LeaderboardDB) :
    ((sortedFillers db).Pairwise (fun a b => b.formsFilled ≤ a.formsFilled) ∧
      (sortedFillers db).length ≤ 8 ∧
      (sortedFillers db).map (fun e => e.rank) = List.range' 1 (sortedFillers db).length) ∧
    ((sortedPosters db).Pairwise (fun a b => b.formsPosted ≤ a.formsPosted) ∧
      (sortedPosters db).length ≤ 8 ∧
      (sortedPosters db).map (fun e => e.rank) = List.range' 1 (sortedPosters db).length) := by
  refine ⟨⟨sortedFillers_pairwise db, ?_, ?_⟩, ⟨sortedPosters_pairwise db, ?_, ?_⟩⟩
  · rw [sortedFillers, assignFillerRanks_length, List.length_take]
    exact min_le_left _ _
  · rw [sortedFillers, assignFillerRanks_map_rank, assignFillerRanks_length]
  · rw [sortedPosters, assignPosterRanks_length, List.length_take]
    exact min_le_left _ _
  · rw [sortedPosters, assignPosterRanks_map_rank, assignPosterRanks_length]

/-! ## C10: every fillers entry has points = 5 × formsFilled and badges = 0 -/

theorem bumpFillerStat_inv (stats : List (String × FillerStat)) (uid : String)
    (h : ∀ kv ∈ stats, kv.2.points = 5 * kv.2.formsFilled) :
    ∀ kv ∈ bumpFillerStat stats uid, kv.2.points = 5 * kv.2.formsFilled := by
  intro kv hkv
  rw [bumpFillerStat] at hkv
  by_cases hc : stats.any (fun kv => kv.1 == uid)
  · rw [if_pos hc] at hkv
    obtain ⟨kv0, hkv0, rfl⟩ := List.mem_map.mp hkv
    by_cases he : (kv0.1 == uid) = true
    · rw [if_pos he]
      have := h kv0 hkv0
      show kv0.2.points + 5 = 5 * (kv0.2.formsFilled + 1)
      omega
    · rw [if_neg he]
      exact h kv0 hkv0
  · rw [if_neg hc] at hkv
    rcases List.mem_append.mp hkv with h1 | h2
    · exact h kv h1
    · simp only [List.mem_singleton] at h2
      subst h2
      rfl

theorem fillerStats_inv_aux (fills : List LFillRow) (stats : List (String × FillerStat))
    (h : ∀ kv ∈ stats, kv.2.points = 5 * kv.2.formsFilled) :
    ∀ kv ∈ fills.foldl (fun stats fill => bumpFillerStat stats fill.user_id) stats,
      kv.2.points = 5 * kv.2.formsFilled := by
  induction fills generalizing stats with
  | nil => exact h
  | cons f rest ih =>
    intro kv hkv
    exact ih (bumpFillerStat stats f.user_id) (bumpFillerStat_inv stats f.user_id h) kv hkv

theorem fillerStats_invariant (fills : List LFillRow) :
    ∀ kv ∈ fillerStats fills, kv.2.points = 5 * kv.2.formsFilled :=
  fillerStats_inv_aux fills [] (by intro kv hkv; simp at hkv)

theorem mem_assignFillerRanks (l : List TopFiller) (i : Nat) (e : TopFiller)
    (h : e ∈ assignFillerRanks i l) :
    ∃ x ∈ l, e.formsFilled = x.formsFilled ∧ e.points = x.points ∧ e.badges = x.badges := by
  induction l generalizing i with
  | nil => simp [assignFillerRanks] at h
  | cons y rest ih =>
    rw [assignFillerRanks] at h
    rcases List.mem_cons.mp h with he | hr
    · exact ⟨y, List.mem_cons_self y rest, by rw [he]; exact ⟨rfl, rfl, rfl⟩⟩
    · obtain ⟨x, hx, hfields⟩ := ih (i + 1) hr
      exact ⟨x, List.mem_cons_of_mem y hx, hfields⟩

/-- C10: Every entry of the fillers leaderboard satisfies the invariant
`points = 5 × formsFilled` (each fill adds one to the count and five points
for the same user) and `badges = 0`. -/
theorem fillers_points_invariant (db : LeaderboardDB) (e : TopFiller)
    (h : e ∈ sortedFillers db) : e.points = 5 * e.formsFilled ∧ e.badges = 0 := by
  rw [sortedFillers] at h
  obtain ⟨x, hx, hff, hp, hb⟩ := mem_assignFillerRanks _ _ _ h
  have hx3 : x ∈ fillersWithNames db :=
    List.mem_mergeSort.mp (List.mem_of_mem_take hx)
  rw [fillersWithNames] at hx3
  obtain ⟨kv, hkv, hsome⟩ := List.mem_filterMap.mp hx3
  cases hms : maybeSingle db.profiles kv.1 with
  | none =>
    rw [hms] at hsome
    simp at hsome
  | some profile =>
    rw [hms] at hsome
    simp only [Option.some.injEq] at hsome
    have hinv := fillerStats_invariant db.form_fills kv hkv
    subst hsome
    exact ⟨by rw [hp, hff]; exact hinv, by rw [hb]⟩

/-- A one-fill database used as the C10 witness input. -/
def exFillerDB : LeaderboardDB :=
  { forms := [],
    form_fills := [{ form_id := "f1", user_id := "u1", rating := some 4 }],
    profiles := [{ id := "u1", name := "Bob" }] }

/-- The single fillers-leaderboard entry `exFillerDB` produces. -/
def exTopFiller : TopFiller :=
  { rank := 1, name := "Bob", formsFilled := 1, points := 5, badges := 0 }

/-- Witness for C10 at the concrete database `exFillerDB`. -/
theorem fillers_points_invariant_witness :
    exTopFiller ∈ sortedFillers exFillerDB ∧
      exTopFiller.points = 5 * exTopFiller.formsFilled ∧ exTopFiller.badges = 0 := by
  have h1 : fillersWithNames exFillerDB =
      [{ rank := 0, name := "Bob", formsFilled := 1, points := 5, badges := 0 }] := rfl
  have hmem : exTopFiller ∈ sortedFillers exFillerDB := by
    rw [sortedFillers, h1, List.mergeSort_singleton]
    decide
  exact ⟨hmem, (fillers_points_invariant exFillerDB exTopFiller hmem).1,
    (fillers_points_invariant exFillerDB exTopFiller hmem).2⟩

/-! ## C2: the posters leaderboard average is the rounded arithmetic mean -/

theorem filter_isSome_filterMap (l : List (Option ℚ)) :
    (l.filter (fun r => r.isSome)).filterMap id = l.filterMap id := by
  induction l with
  | nil => rfl
  | cons x t ih => cases x <;> simp [ih]

theorem filter_isSome_length (l : List (Option ℚ)) :
    (l.filter (fun r => r.isSome)).length = (l.filterMap id).length := by
  induction l with
  | nil => rfl
  | cons x t ih => cases x <;> simp [ih]

theorem foldl_getD_eq_add_sum (l : List (Option ℚ)) (a : ℚ) :
    (l.filter (fun r => r.isSome)).foldl (fun sum r => sum + r.getD 0) a =
      a + (l.filterMap id).sum := by
  induction l generalizing a with
  | nil => simp
  | cons x t ih =>
    cases x with
    | none => simp [ih]
    | some v => simp [ih (a + v), add_assoc]

/-- The posters' guarded average, rewritten as the arithmetic mean of the
non-null values. -/
theorem posterAvgRatingRaw_eq_mean (l : List (Option ℚ)) :
    posterAvgRatingRaw l =
      if 0 < (l.filterMap id).length then
        (l.filterMap id).sum / ((l.filterMap id).length : ℚ)
      else 0 := by
  simp only [posterAvgRatingRaw, filter_isSome_length, foldl_getD_eq_add_sum, zero_add,
    gt_iff_lt]

theorem userForms_contains_eq (forms : List LFormRow) (uid x : String) :
    (((forms.filter (fun f => f.user_id == uid)).map (fun f => f.id)).contains x) =
      forms.any (fun f => f.user_id == uid && f.id == x) := by
  rw [Bool.eq_iff_iff]
  simp only [List.contains_iff_exists_mem_beq, List.mem_map, List.mem_filter,
    List.any_eq_true, Bool.and_eq_true, beq_iff_eq]
  constructor
  · rintro ⟨b, ⟨f, ⟨hf, hu⟩, rfl⟩, hx⟩
    exact ⟨f, hf, hu, hx.symm⟩
  · rintro ⟨f, hf, hu, hx⟩
    exact ⟨f.id, ⟨f, ⟨hf, hu⟩, rfl⟩, hx.symm⟩

/-- C2 (amended): Every entry the posters pass pushes carries as `avgRating`
the arithmetic mean of the non-null ratings over all fills of that user's
forms — rounded to one decimal place by `Number(avgRating.toFixed(1))` — and
0 (rounded, unchanged) when there are no such ratings. -/
theorem poster_avg_is_rounded_mean (db : LeaderboardDB) (userId : String)
    (stat : PosterStat) (e : TopPoster) (h : posterEntry db userId stat = some e) :
    e.avgRating = toFixed1 (specUserMeanRating db userId) := by
  simp only [posterEntry] at h
  split at h
  · exact absurd h (by simp)
  · split at h
    case isTrue hlen =>
      obtain rfl : _ = e := Option.some.injEq _ _ ▸ h
      show toFixed1 (posterAvgRatingRaw _) = toFixed1 (specUserMeanRating db userId)
      congr 1
      rw [posterAvgRatingRaw_eq_mean, specUserMeanRating]
      have hmapeq :
          (((db.form_fills.filter (fun fl =>
              ((db.forms.filter (fun f => f.user_id == userId)).map
                (fun f => f.id)).contains fl.form_id)).map (fun fl => fl.rating)).filterMap id) =
            (db.form_fills.filter (fun fl =>
              db.forms.any (fun f => f.user_id == userId && f.id == fl.form_id))).filterMap
                (fun fl => fl.rating) := by
        rw [List.filterMap_map]
        have hfeq : (db.form_fills.filter (fun fl =>
            ((db.forms.filter (fun f => f.user_id == userId)).map
              (fun f => f.id)).contains fl.form_id)) =
            (db.form_fills.filter (fun fl =>
              db.forms.any (fun f => f.user_id == userId && f.id == fl.form_id))) :=
          List.filter_congr (fun fl _ => userForms_contains_eq db.forms userId fl.form_id)
        rw [hfeq]
        rfl
      rw [hmapeq]
    case isFalse hlen =>
      obtain rfl : _ = e := Option.some.injEq _ _ ▸ h
      show toFixed1 0 = toFixed1 (specUserMeanRating db userId)
      congr 1
      have hnone : ∀ f ∈ db.forms, ¬(f.user_id == userId) = true := by
        intro f hf hbeq
        apply hlen
        have : f.id ∈ (db.forms.filter (fun f => f.user_id == userId)).map (fun f => f.id) :=
          List.mem_map.mpr ⟨f, List.mem_filter.mpr ⟨hf, hbeq⟩, rfl⟩
        exact List.length_pos.mpr (fun hemp => by simp [hemp] at this)
      have hvals : (db.form_fills.filter (fun fl =>
          db.forms.any (fun f => f.user_id == userId && f.id == fl.form_id))) = [] := by
        rw [List.filter_eq_nil_iff]
        intro fl _ hany
        obtain ⟨f, hf, hand⟩ := List.any_eq_true.mp hany
        exact hnone f hf (Bool.and_eq_true _ _ ▸ hand).1
      rw [specUserMeanRating]
      simp [hvals]

/-- A concrete database in which the mean rating is 5/3: one form by `u1`,
three fills rated 1, 2, 2. -/
def exPosterDB : LeaderboardDB :=
  { forms := [{ id := "f1", user_id := "u1" }],
    form_fills :=
      [{ form_id := "f1", user_id := "a", rating := some 1 },
       { form_id := "f1", user_id := "b", rating := some 2 },
       { form_id := "f1", user_id := "c", rating := some 2 }],
    profiles := [{ id := "u1", name := "Alice" }] }

/-- The entry the posters pass builds for `u1` in `exPosterDB` (before
ranking). -/
def exTopPoster : TopPoster :=
  { rank := 0, name := "Alice", formsPosted := 1, totalResponses := 3, avgRating := 17 / 10 }

theorem exPosterEntry_eval :
    posterEntry exPosterDB "u1" { formsPosted := 1, totalResponses := 0, avgRating := 0 } =
      some exTopPoster := by
  simp only [posterEntry, maybeSingle, exPosterDB, exTopPoster]
  norm_num [List.filter, List.contains, posterAvgRatingRaw, toFixed1, round_eq]

/-- C2 counterexample: in `exPosterDB` the arithmetic mean of the non-null
ratings of `u1`'s fills is 5/3, but the displayed `avgRating` is 1.7
(= 17/10, the mean rounded to one decimal place), so the displayed value does
not equal the mean. -/
theorem poster_avg_not_exact_mean :
    (sortedPosters exPosterDB).map (fun e => e.avgRating) = [(17 : ℚ) / 10] ∧
    specUserMeanRating exPosterDB "u1" = (5 : ℚ) / 3 ∧
    ((17 : ℚ) / 10 = (5 : ℚ) / 3 → False) := by
  refine ⟨?_, ?_, by norm_num⟩
  · have h1 : postersWithNames exPosterDB = [exTopPoster] := by
      have h0 := exPosterEntry_eval
      simp only [exPosterDB] at h0
      simp only [postersWithNames, posterStats, exPosterDB, List.foldl_cons, List.foldl_nil,
        bumpPosterStat]
      norm_num [List.filterMap]
      rw [h0]
    rw [sortedPosters, h1, List.mergeSort_singleton]
    rfl
  · simp only [specUserMeanRating, exPosterDB]
    norm_num [List.filter, List.filterMap]

/-- Witness for C2 at the concrete database `exPosterDB`. -/
theorem poster_avg_is_rounded_mean_witness :
    posterEntry exPosterDB "u1" { formsPosted := 1, totalResponses := 0, avgRating := 0 } =
        some exTopPoster ∧
      exTopPoster.avgRating = toFixed1 (specUserMeanRating exPosterDB "u1") :=
  ⟨exPosterEntry_eval,
    poster_avg_is_rounded_mean exPosterDB "u1"
      { formsPosted := 1, totalResponses := 0, avgRating := 0 } exTopPoster exPosterEntry_eval⟩

end SurvEase
